import Mathlib

/-!
Verification of the pipe-pilot Jenkins automation tool.

Strings from the Python source are modelled as lists of characters
(`Str`), so that every operation of the embedded code is executable and
decidable.  The Python dictionaries that hold the generated artifacts
are modelled as association lists with Python's insertion-order update
semantics (`Dict`, `dictInsert`).

Embedded code:
  * `_parse_structured_response`, `generate_all_files`, `modify_files`
    from src/generator.py (the batch-reply delimiter protocol);
  * `start_automation_flow`, `plugin_installation_phase`,
    `_install_jenkins_plugins`, `_parse_plugins_xml`,
    `_create_jenkins_job`, `_create_minimal_pipeline_job`
    from src/automation.py (the deployment phase machine).
External effects (subprocess results, the CLI helper, file reads,
operator prompts) enter the model as explicit parameters.
-/

/-- Python strings, modelled as lists of characters. -/
abbrev Str := List Char

/-- The whitespace characters stripped by Python's `str.strip()` (ASCII). -/
def pyIsSpace (c : Char) : Bool :=
  c == ' ' || c == '\t' || c == '\n' || c == '\r' || c == '\x0b' || c == '\x0c'

/-- Python's `str.strip()`: remove leading and trailing whitespace. -/
def pyStrip (s : Str) : Str :=
  ((s.dropWhile pyIsSpace).reverse.dropWhile pyIsSpace).reverse

/-- Python's `str.split('\n')`. -/
def splitLines : Str → List Str
  | [] => [[]]
  | c :: rest =>
    if c = '\n' then [] :: splitLines rest
    else
      match splitLines rest with
      | l :: ls => (c :: l) :: ls
      | [] => [[c]]

/-- Python's `'\n'.join(lines)`. -/
def joinLines : List Str → Str
  | [] => []
  | [l] => l
  | l :: ls => l ++ '\n' :: joinLines ls

/-- A Python `dict` from strings to strings, as an insertion-ordered
association list. -/
abbrev Dict := List (Str × Str)

/-- Whether a key is present (`k in files` in Python). -/
def dictContains (d : Dict) (k : Str) : Bool :=
  d.any fun p => p.1 == k

/-- Python's `d[k] = v`: update in place when the key exists, else append. -/
def dictInsert (d : Dict) (k v : Str) : Dict :=
  if dictContains d k then d.map fun p => if p.1 == k then (k, v) else p
  else d ++ [(k, v)]

/-- Value stored under a key, if present. -/
def dictGet (d : Dict) (k : Str) : Option Str :=
  (d.find? (fun p => p.1 == k)).map (·.2)

/-- The three artifact keys produced by the generator. -/
def keyJenkinsfile : Str := "Jenkinsfile".data

/-- Artifact key for the job-configuration document. -/
def keyConfig : Str := "pipeline_job_config.xml".data

/-- Artifact key for the plugin manifest. -/
def keyPlugins : Str := "required_plugins.xml".data

/-- The section marker line for the Jenkinsfile artifact. -/
def markerJenkinsfileLine : Str := "=== JENKINSFILE ===".data

/-- The section marker line for the job-configuration artifact. -/
def markerConfigLine : Str := "=== PIPELINE_JOB_CONFIG ===".data

/-- The section marker line for the plugin-manifest artifact. -/
def markerPluginsLine : Str := "=== REQUIRED_PLUGINS ===".data

/-- The end-of-reply marker line. -/
def markerEndLine : Str := "=== END ===".data

/-- A line whose stripped form is one of the four recognized markers. -/
def IsMarkerLine (l : Str) : Prop :=
  pyStrip l = markerJenkinsfileLine ∨ pyStrip l = markerConfigLine ∨
    pyStrip l = markerPluginsLine ∨ pyStrip l = markerEndLine

instance (l : Str) : Decidable (IsMarkerLine l) := by
  unfold IsMarkerLine; infer_instance

/-- The flush performed on a section switch:
`if current_section and current_content: files[current_section] = '\n'.join(current_content).strip()`. -/
def flushFiles (files : Dict) (cur : Option Str) (content : List Str) : Dict :=
  match cur with
  | none => files
  | some sec =>
    if sec.isEmpty || content.isEmpty then files
    else dictInsert files sec (pyStrip (joinLines content))

/-- The line loop of `_parse_structured_response` (src/generator.py).
State: the files dict, the current section and the accumulated content.
The `=== END ===` line breaks out of the loop, returning the state as it
stands after its flush. -/
def parseLoop : List Str → Dict → Option Str → List Str → Dict × Option Str × List Str
  | [], files, cur, content => (files, cur, content)
  | line :: rest, files, cur, content =>
    if pyStrip line = markerJenkinsfileLine then
      parseLoop rest files (some keyJenkinsfile) []
    else if pyStrip line = markerConfigLine then
      parseLoop rest (flushFiles files cur content) (some keyConfig) []
    else if pyStrip line = markerPluginsLine then
      parseLoop rest (flushFiles files cur content) (some keyPlugins) []
    else if pyStrip line = markerEndLine then
      (flushFiles files cur content, cur, content)
    else
      match cur with
      | some sec =>
        if sec.isEmpty then parseLoop rest files cur content
        else parseLoop rest files cur (content ++ [line])
      | none => parseLoop rest files cur content

/-- `_parse_structured_response` (src/generator.py): scan the reply
line-by-line, then flush a still-accumulating section whose key is not
yet present (the missing-END case). -/
def _parse_structured_response (response : Str) : Dict :=
  match parseLoop (splitLines response) [] none [] with
  | (files, some sec, content) =>
    if sec.isEmpty || content.isEmpty || dictContains files sec then files
    else dictInsert files sec (pyStrip (joinLines content))
  | (files, none, _) => files

/-- `_generate_all_files_fallback` (src/generator.py): one batch call,
decoded with the structured-response protocol.  The backend reply is a
parameter. -/
def _generate_all_files_fallback (response : Str) : Dict :=
  _parse_structured_response response

/-- `generate_all_files` (src/generator.py).  The three per-artifact
generation calls are parameters: `some s` is a successful (cleaned)
reply, `none` a raised exception.  A raise in any of the three calls
abandons the per-artifact attempt and falls back to the batch reply. -/
def generate_all_files (jenkinsfileCall jobConfigCall pluginsCall : Option Str)
    (fallbackResponse : Str) : Dict :=
  match jenkinsfileCall with
  | none => _generate_all_files_fallback fallbackResponse
  | some j =>
    match jobConfigCall with
    | none => _generate_all_files_fallback fallbackResponse
    | some c =>
      match pluginsCall with
      | none => _generate_all_files_fallback fallbackResponse
      | some p => [(keyJenkinsfile, j), (keyConfig, c), (keyPlugins, p)]

/-- `modify_files` (src/generator.py): one batch call on the feedback
prompt, decoded with the structured-response protocol. -/
def modify_files (response : Str) : Dict :=
  _parse_structured_response response

/-! ### Deployment orchestrator (src/automation.py) -/

/-- Outcome record of one run of the automation flow: the returned
boolean and whether Phases 2 and 3 were attempted at all. -/
structure AutomationTrace where
  result : Bool
  attemptedJobPhase : Bool
  attemptedPluginPhase : Bool
deriving DecidableEq

/-- `start_automation_flow` (src/automation.py).  The three phase
outcomes are parameters; the function mirrors the control flow: a
failed git phase returns `False` immediately, a failed job phase only
prints and continues, and the final result is the conjunction. -/
def start_automation_flow (gitOutcome jobOutcome pluginOutcome : Bool) : AutomationTrace :=
  if !gitOutcome then
    { result := false, attemptedJobPhase := false, attemptedPluginPhase := false }
  else
    { result := gitOutcome && jobOutcome && pluginOutcome,
      attemptedJobPhase := true, attemptedPluginPhase := true }

/-- A parsed plugin requirement: `{'name': ..., 'version': ...}`. -/
structure PluginReq where
  name : Str
  version : Str
deriving DecidableEq

/-- Consume an expected literal from the front of a string. -/
def consumeLit : Str → Str → Option Str
  | [], s => some s
  | _ :: _, [] => none
  | p :: ps, c :: cs => if c = p then consumeLit ps cs else none

/-- The literal opening of the plugin-entry pattern. -/
def pluginOpenLit : Str := "<plugin".data

/-- The literal closing tag of the plugin-entry pattern. -/
def pluginCloseLit : Str := "</plugin>".data

/-- One attempted match of the pattern `<plugin[^>]*>([^<]+)</plugin>`
at the start of `s`: the greedy character classes make the match
deterministic, so `[^>]*>` consumes exactly up to the first `>` and
`([^<]+)` captures exactly the maximal nonempty run of non-`<`
characters, which must be followed by `</plugin>`. -/
def tryPluginMatch (s : Str) : Option (Str × Str) :=
  match consumeLit pluginOpenLit s with
  | none => none
  | some afterOpen =>
    match afterOpen.dropWhile (fun c => c != '>') with
    | '>' :: afterGt =>
      if (afterGt.takeWhile (fun c => c != '<')).isEmpty then none
      else
        match consumeLit pluginCloseLit (afterGt.dropWhile (fun c => c != '<')) with
        | some remaining => some (afterGt.takeWhile (fun c => c != '<'), remaining)
        | none => none
    | _ => none

/-- `re.findall` of the plugin-entry pattern: scan left to right,
emitting non-overlapping leftmost matches.  The fuel argument (the
input length suffices) makes the recursion structural. -/
def scanPluginEntries : Nat → Str → List Str
  | 0, _ => []
  | _ + 1, [] => []
  | fuel + 1, c :: rest =>
    match tryPluginMatch (c :: rest) with
    | some (cap, remaining) => cap :: scanPluginEntries fuel remaining
    | none => scanPluginEntries fuel rest

/-- Turn one matched fragment into a requirement: split on the first
`@` with both parts stripped, defaulting the version to `latest`. -/
def pluginEntryToReq (entry : Str) : PluginReq :=
  if entry.any (fun c => c == '@') then
    { name := pyStrip (entry.takeWhile (fun c => c != '@')),
      version := pyStrip ((entry.dropWhile (fun c => c != '@')).drop 1) }
  else
    { name := pyStrip entry, version := "latest".data }

/-- `_parse_plugins_xml` (src/automation.py).  The file read is a
parameter: `none` models a raised read error, which the function
swallows, returning the empty list. -/
def _parse_plugins_xml (readResult : Option Str) : List PluginReq :=
  match readResult with
  | none => []
  | some content => (scanPluginEntries content.length content).map pluginEntryToReq

/-- A single well-formed plugin entry, `<plugin>frag</plugin>`. -/
def pluginEntryXml (frag : Str) : Str :=
  "<plugin>".data ++ frag ++ "</plugin>".data

/-- A manifest text assembled from a leading segment and a list of
(fragment, following segment) pairs — the shape of a well-formed
plugin manifest around its entries. -/
def manifestOf : Str → List (Str × Str) → Str
  | lead, [] => lead
  | lead, (frag, sep) :: rest => lead ++ pluginEntryXml frag ++ manifestOf sep rest

/-- The CLI argument built for one plugin install:
`name` or `name:version` when the version is not `latest`. -/
def pluginSpec (p : PluginReq) : Str :=
  if p.version == "latest".data then p.name else p.name ++ ':' :: p.version

/-- `_install_jenkins_plugins` (src/automation.py): install every
plugin, counting successes (`cliOk` tells whether the CLI call for a
given spec returns output rather than `None`); succeed when the count
equals the total or is positive, fail when it is zero. -/
def _install_jenkins_plugins (plugins : List PluginReq) (cliOk : Str → Bool) : Bool :=
  let successCount := (plugins.filter fun p => cliOk (pluginSpec p)).length
  if successCount = plugins.length then true
  else if 0 < successCount then true
  else false

/-- Outcome record of the plugin-installation phase: the returned
boolean, whether the operator was prompted, and whether any remote
install was attempted. -/
structure PluginPhaseTrace where
  result : Bool
  promptedOperator : Bool
  installAttempted : Bool
deriving DecidableEq

/-- `plugin_installation_phase` (src/automation.py).  File existence,
the manifest read, the operator's confirmation and the per-install CLI
outcomes are parameters. -/
def plugin_installation_phase (pluginsFileExists : Bool) (readResult : Option Str)
    (confirm : Bool) (cliOk : Str → Bool) : PluginPhaseTrace :=
  if !pluginsFileExists then
    { result := false, promptedOperator := false, installAttempted := false }
  else
    let required := _parse_plugins_xml readResult
    if required.isEmpty then
      { result := true, promptedOperator := false, installAttempted := false }
    else if !confirm then
      { result := false, promptedOperator := true, installAttempted := false }
    else
      { result := _install_jenkins_plugins required cliOk,
        promptedOperator := true, installAttempted := true }

/-! ### Job creation and its minimal-template fallback -/

/-- Result of one remote CLI invocation: an exit code, or a timeout. -/
inductive CmdOutcome where
  | exit (code : Nat)
  | timedOut
deriving DecidableEq

/-- Outcome record of the job-creation phase: the returned boolean and
the documents submitted by fallback attempts. -/
structure JobCreationTrace where
  result : Bool
  fallbackDocs : List Str
deriving DecidableEq

/-- Head of the minimal pipeline job template, up to the repository
name interpolated into the description. -/
def mjxDescHead : Str :=
  "<?xml version='1.1' encoding='UTF-8'?>\n<flow-definition plugin=\"workflow-job@2.40\">\n  <actions/>\n  <description>Jenkins pipeline for ".data

/-- Middle of the minimal template, from the description to just
before the `<url>` element. -/
def mjxMid : Str :=
  "</description>\n  <keepDependencies>false</keepDependencies>\n  <properties>\n    <jenkins.model.BuildDiscarderProperty>\n      <strategy class=\"hudson.tasks.LogRotator\">\n        <daysToKeep>-1</daysToKeep>\n        <numToKeep>10</numToKeep>\n        <artifactDaysToKeep>-1</artifactDaysToKeep>\n        <artifactNumToKeep>-1</artifactNumToKeep>\n      </strategy>\n    </jenkins.model.BuildDiscarderProperty>\n  </properties>\n  <definition class=\"org.jenkinsci.plugins.workflow.cps.CpsScmFlowDefinition\" plugin=\"workflow-cps@2.80\">\n    <scm class=\"hudson.plugins.git.GitSCM\" plugin=\"git@4.8.3\">\n      <configVersion>2</configVersion>\n      <userRemoteConfigs>\n        <hudson.plugins.git.UserRemoteConfig>\n          ".data

/-- Tail of the minimal template between the `</url>` closing tag and
the `<scriptPath>` element. -/
def mjxTail1 : Str :=
  "\n        </hudson.plugins.git.UserRemoteConfig>\n      </userRemoteConfigs>\n      <branches>\n        <hudson.plugins.git.BranchSpec>\n          <name>*/main</name>\n        </hudson.plugins.git.BranchSpec>\n      </branches>\n      <doGenerateSubmoduleConfigurations>false</doGenerateSubmoduleConfigurations>\n      <submoduleCfg class=\"list\"/>\n      <extensions/>\n    </scm>\n    ".data

/-- Final tail of the minimal template after the `<scriptPath>`
element. -/
def mjxTail2 : Str :=
  "\n    <lightweight>true</lightweight>\n  </definition>\n  <triggers/>\n  <disabled>false</disabled>\n</flow-definition>".data

/-- The hardcoded minimal pipeline job document of
`_create_minimal_pipeline_job`, interpolating the repository name and
repository URL. -/
def minimal_job_xml (repo_name repo_url : Str) : Str :=
  mjxDescHead ++ repo_name ++ mjxMid ++ "<url>".data ++ repo_url ++ "</url>".data
    ++ mjxTail1 ++ "<scriptPath>Jenkinsfile</scriptPath>".data ++ mjxTail2

/-- `_create_minimal_pipeline_job` (src/automation.py): succeeds
exactly when the CLI accepts the minimal document with exit code 0;
a nonzero exit or a timeout (caught by the generic handler) fails. -/
def _create_minimal_pipeline_job (outcome : CmdOutcome) : Bool :=
  match outcome with
  | .exit 0 => true
  | .exit (_ + 1) => false
  | .timedOut => false

/-- `_create_jenkins_job` (src/automation.py): submit the full
generated configuration; on exit code 0 succeed, on nonzero exit fall
back once to the minimal template, on timeout fail without fallback. -/
def _create_jenkins_job (fullOutcome fallbackOutcome : CmdOutcome)
    (repo_name repo_url : Str) : JobCreationTrace :=
  match fullOutcome with
  | .exit 0 => { result := true, fallbackDocs := [] }
  | .exit (_ + 1) =>
    { result := _create_minimal_pipeline_job fallbackOutcome,
      fallbackDocs := [minimal_job_xml repo_name repo_url] }
  | .timedOut => { result := false, fallbackDocs := [] }

example : _parse_structured_response
    ("=== JENKINSFILE ===\npipeline stage\n=== PIPELINE_JOB_CONFIG ===\nconf\n=== REQUIRED_PLUGINS ===\nplug\n=== END ===".data)
    = [(keyJenkinsfile, "pipeline stage".data), (keyConfig, "conf".data),
       (keyPlugins, "plug".data)] := by decide

example : _parse_plugins_xml (some "<plugins>\n  <plugin>git@4.8.3</plugin>\n  <plugin>workflow-aggregator</plugin>\n</plugins>".data)
    = [{ name := "git".data, version := "4.8.3".data },
       { name := "workflow-aggregator".data, version := "latest".data }] := by decide

/-! ### Line-splitting lemmas -/

lemma splitLines_ne_nil (s : Str) : splitLines s ≠ [] := by
  induction s with
  | nil => simp [splitLines]
  | cons c rest ih =>
    simp only [splitLines]
    split
    · simp
    · split <;> simp

lemma splitLines_of_not_mem {l : Str} (h : '\n' ∉ l) : splitLines l = [l] := by
  induction l with
  | nil => rfl
  | cons c rest ih =>
    rw [List.mem_cons, not_or] at h
    rw [splitLines, if_neg (fun hc => h.1 hc.symm), ih h.2]

lemma splitLines_append_newline {l : Str} (t : Str) (h : '\n' ∉ l) :
    splitLines (l ++ '\n' :: t) = l :: splitLines t := by
  induction l with
  | nil => rw [List.nil_append, splitLines, if_pos rfl]
  | cons c rest ih =>
    rw [List.mem_cons, not_or] at h
    rw [List.cons_append, splitLines, if_neg (fun hc => h.1 hc.symm), ih h.2]

lemma joinLines_cons (a : Str) {ls : List Str} (h : ls ≠ []) :
    joinLines (a :: ls) = a ++ '\n' :: joinLines ls := by
  cases ls with
  | nil => cases h rfl
  | cons b rest => rfl

lemma splitLines_joinLines {ls : List Str} (h1 : ls ≠ []) (h2 : ∀ l ∈ ls, '\n' ∉ l) :
    splitLines (joinLines ls) = ls := by
  induction ls with
  | nil => cases h1 rfl
  | cons a rest ih =>
    cases rest with
    | nil => exact splitLines_of_not_mem (h2 a (List.mem_cons_self a []))
    | cons b rest' =>
      rw [joinLines_cons a (by simp),
        splitLines_append_newline _ (h2 a (List.mem_cons_self a _)),
        ih (by simp) (fun l hl => h2 l (List.mem_cons_of_mem a hl))]

/-! ### Step lemmas for the decoder loop -/

lemma isEmpty_false_of_ne_nil {α : Type} {l : List α} (h : l ≠ []) : l.isEmpty = false := by
  cases l with
  | nil => cases h rfl
  | cons a b => rfl

lemma flushFiles_some {sec : Str} (hsec : sec ≠ []) {content : List Str} (hc : content ≠ [])
    (files : Dict) :
    flushFiles files (some sec) content = dictInsert files sec (pyStrip (joinLines content)) := by
  rw [flushFiles, isEmpty_false_of_ne_nil hsec, isEmpty_false_of_ne_nil hc]
  rfl

lemma dictInsert_of_not_contains {d : Dict} {k : Str} (h : dictContains d k = false) (v : Str) :
    dictInsert d k v = d ++ [(k, v)] := by
  rw [dictInsert, h]
  simp

lemma parseLoop_cons_markerJ (rest : List Str) (files : Dict) (cur : Option Str)
    (content : List Str) :
    parseLoop (markerJenkinsfileLine :: rest) files cur content
      = parseLoop rest files (some keyJenkinsfile) [] := by
  simp only [parseLoop]
  rw [if_pos (by decide)]

lemma parseLoop_cons_markerP (rest : List Str) (files : Dict) (cur : Option Str)
    (content : List Str) :
    parseLoop (markerConfigLine :: rest) files cur content
      = parseLoop rest (flushFiles files cur content) (some keyConfig) [] := by
  simp only [parseLoop]
  rw [if_neg (by decide), if_pos (by decide)]

lemma parseLoop_cons_markerR (rest : List Str) (files : Dict) (cur : Option Str)
    (content : List Str) :
    parseLoop (markerPluginsLine :: rest) files cur content
      = parseLoop rest (flushFiles files cur content) (some keyPlugins) [] := by
  simp only [parseLoop]
  rw [if_neg (by decide), if_neg (by decide), if_pos (by decide)]

lemma parseLoop_cons_markerEnd (rest : List Str) (files : Dict) (cur : Option Str)
    (content : List Str) :
    parseLoop (markerEndLine :: rest) files cur content
      = (flushFiles files cur content, cur, content) := by
  simp only [parseLoop]
  rw [if_neg (by decide), if_neg (by decide), if_neg (by decide), if_pos (by decide)]

lemma parseLoop_cons_plain_none {line : Str} (h : ¬ IsMarkerLine line) (rest : List Str)
    (files : Dict) (content : List Str) :
    parseLoop (line :: rest) files none content = parseLoop rest files none content := by
  unfold IsMarkerLine at h
  push_neg at h
  obtain ⟨h1, h2, h3, h4⟩ := h
  simp only [parseLoop, if_neg h1, if_neg h2, if_neg h3, if_neg h4]

lemma parseLoop_cons_plain_some {line : Str} (h : ¬ IsMarkerLine line) {sec : Str}
    (hsec : sec ≠ []) (rest : List Str) (files : Dict) (content : List Str) :
    parseLoop (line :: rest) files (some sec) content
      = parseLoop rest files (some sec) (content ++ [line]) := by
  unfold IsMarkerLine at h
  push_neg at h
  obtain ⟨h1, h2, h3, h4⟩ := h
  simp only [parseLoop, if_neg h1, if_neg h2, if_neg h3, if_neg h4,
    isEmpty_false_of_ne_nil hsec]
  simp

lemma parseLoop_skip {pre : List Str} (h : ∀ l ∈ pre, ¬ IsMarkerLine l) (rest : List Str)
    (files : Dict) (content : List Str) :
    parseLoop (pre ++ rest) files none content = parseLoop rest files none content := by
  induction pre with
  | nil => rfl
  | cons a pre' ih =>
    rw [List.cons_append, parseLoop_cons_plain_none (h a (by simp)),
      ih (fun l hl => h l (by simp [hl]))]

lemma parseLoop_accum {c : List Str} (h : ∀ l ∈ c, ¬ IsMarkerLine l) {sec : Str}
    (hsec : sec ≠ []) (rest : List Str) (files : Dict) :
    ∀ acc, parseLoop (c ++ rest) files (some sec) acc
      = parseLoop rest files (some sec) (acc ++ c) := by
  induction c with
  | nil => intro acc; simp
  | cons a c' ih =>
    intro acc
    rw [List.cons_append, parseLoop_cons_plain_some (h a (by simp)) hsec,
      ih (fun l hl => h l (by simp [hl]))]
    simp

/-! ### C1: well-formed batch replies decode to exactly three artifacts -/

/-- C1: for every batch reply consisting of arbitrary non-marker
preamble, the three section markers in the expected order, each
followed by at least one content line, and the end marker (with
arbitrary trailing text), `_parse_structured_response` returns exactly
the three artifact keys, each mapped to its section's lines joined
with newlines and stripped. -/
theorem c1_wellformed_batch_reply_decode
    (pre cJ cP cR post : List Str)
    (hpre : ∀ l ∈ pre, ¬ IsMarkerLine l ∧ '\n' ∉ l)
    (hcJ : ∀ l ∈ cJ, ¬ IsMarkerLine l ∧ '\n' ∉ l) (hcJne : cJ ≠ [])
    (hcP : ∀ l ∈ cP, ¬ IsMarkerLine l ∧ '\n' ∉ l) (hcPne : cP ≠ [])
    (hcR : ∀ l ∈ cR, ¬ IsMarkerLine l ∧ '\n' ∉ l) (hcRne : cR ≠ [])
    (hpost : ∀ l ∈ post, '\n' ∉ l) :
    _parse_structured_response
        (joinLines (pre ++ markerJenkinsfileLine ::
          (cJ ++ markerConfigLine :: (cP ++ markerPluginsLine ::
            (cR ++ markerEndLine :: post)))))
      = [(keyJenkinsfile, pyStrip (joinLines cJ)),
         (keyConfig, pyStrip (joinLines cP)),
         (keyPlugins, pyStrip (joinLines cR))] := by
  have hnl : ∀ l ∈ pre ++ markerJenkinsfileLine ::
      (cJ ++ markerConfigLine :: (cP ++ markerPluginsLine ::
        (cR ++ markerEndLine :: post))), '\n' ∉ l := by
    intro l hl
    simp only [List.mem_append, List.mem_cons] at hl
    rcases hl with h | rfl | h | rfl | h | rfl | h | rfl | h
    · exact (hpre l h).2
    · decide
    · exact (hcJ l h).2
    · decide
    · exact (hcP l h).2
    · decide
    · exact (hcR l h).2
    · decide
    · exact hpost l h
  have hsplit := splitLines_joinLines (by simp) hnl
  have e1 : dictInsert [] keyJenkinsfile (pyStrip (joinLines cJ))
      = [(keyJenkinsfile, pyStrip (joinLines cJ))] := by
    rw [dictInsert_of_not_contains (by decide)]
    rfl
  have hc2 : dictContains [(keyJenkinsfile, pyStrip (joinLines cJ))] keyConfig = false := by
    simp [dictContains, (by decide : (keyJenkinsfile == keyConfig) = false)]
  have e2 : dictInsert [(keyJenkinsfile, pyStrip (joinLines cJ))] keyConfig
      (pyStrip (joinLines cP))
      = [(keyJenkinsfile, pyStrip (joinLines cJ)), (keyConfig, pyStrip (joinLines cP))] := by
    rw [dictInsert_of_not_contains hc2]
    rfl
  have hc3 : dictContains [(keyJenkinsfile, pyStrip (joinLines cJ)),
      (keyConfig, pyStrip (joinLines cP))] keyPlugins = false := by
    simp [dictContains, (by decide : (keyJenkinsfile == keyPlugins) = false),
      (by decide : (keyConfig == keyPlugins) = false)]
  have e3 : dictInsert [(keyJenkinsfile, pyStrip (joinLines cJ)),
      (keyConfig, pyStrip (joinLines cP))] keyPlugins (pyStrip (joinLines cR))
      = [(keyJenkinsfile, pyStrip (joinLines cJ)), (keyConfig, pyStrip (joinLines cP)),
         (keyPlugins, pyStrip (joinLines cR))] := by
    rw [dictInsert_of_not_contains hc3]
    rfl
  have hloop : parseLoop (pre ++ markerJenkinsfileLine ::
      (cJ ++ markerConfigLine :: (cP ++ markerPluginsLine ::
        (cR ++ markerEndLine :: post)))) [] none []
      = ([(keyJenkinsfile, pyStrip (joinLines cJ)), (keyConfig, pyStrip (joinLines cP)),
          (keyPlugins, pyStrip (joinLines cR))], some keyPlugins, cR) := by
    rw [parseLoop_skip (fun l hl => (hpre l hl).1), parseLoop_cons_markerJ,
      parseLoop_accum (fun l hl => (hcJ l hl).1) (by decide), parseLoop_cons_markerP,
      List.nil_append, flushFiles_some (by decide) hcJne, e1,
      parseLoop_accum (fun l hl => (hcP l hl).1) (by decide), parseLoop_cons_markerR,
      List.nil_append, flushFiles_some (by decide) hcPne, e2,
      parseLoop_accum (fun l hl => (hcR l hl).1) (by decide), parseLoop_cons_markerEnd,
      List.nil_append, flushFiles_some (by decide) hcRne, e3]
  unfold _parse_structured_response
  rw [hsplit, hloop]
  simp [dictContains]

/-- Witness for C1 at a concrete reply. -/
theorem c1_wellformed_batch_reply_decode_witness :
    _parse_structured_response
        (joinLines ([["intro text".data], markerJenkinsfileLine :: (["pipeline stage".data]
          ++ markerConfigLine :: (["job config".data] ++ markerPluginsLine ::
            (["plugin list".data] ++ markerEndLine :: [["after".data]].flatten)))].flatten))
      = [(keyJenkinsfile, pyStrip (joinLines [["pipeline stage".data]].flatten)),
         (keyConfig, pyStrip (joinLines [["job config".data]].flatten)),
         (keyPlugins, pyStrip (joinLines [["plugin list".data]].flatten))] := by
  exact c1_wellformed_batch_reply_decode ["intro text".data] ["pipeline stage".data]
    ["job config".data] ["plugin list".data] ["after".data]
    (by decide) (by decide) (by decide) (by decide) (by decide) (by decide) (by decide)
    (by decide)

/-! ### C2: order-independence fails — the JENKINSFILE marker does not flush -/

/-- C2 counterexample: a reply with the markers out of the expected
order (PIPELINE_JOB_CONFIG first).  The claim says every section is
captured under its own key; the decoder in fact drops the
job-configuration content, because the `=== JENKINSFILE ===` branch
resets the accumulator without flushing the previous section. -/
theorem c2_counterexample :
    _parse_structured_response
        ("=== PIPELINE_JOB_CONFIG ===\nconfig-content\n=== JENKINSFILE ===\njenkins-content\n=== REQUIRED_PLUGINS ===\nplugins-content\n=== END ===".data)
      = [(keyJenkinsfile, "jenkins-content".data), (keyPlugins, "plugins-content".data)]
    ∧ dictContains
        (_parse_structured_response
          ("=== PIPELINE_JOB_CONFIG ===\nconfig-content\n=== JENKINSFILE ===\njenkins-content\n=== REQUIRED_PLUGINS ===\nplugins-content\n=== END ===".data))
        keyConfig = false := by decide

/-- C2 amended: a recognized `PIPELINE_JOB_CONFIG`, `REQUIRED_PLUGINS`
or `END` marker line flushes the previously accumulating artifact, but
a recognized `JENKINSFILE` marker line discards the accumulating
content without flushing it. -/
theorem c2_amended_flush_on_switch (rest : List Str) (files : Dict) (sec : Str)
    (content : List Str) (hsec : sec ≠ []) (hcontent : content ≠ []) :
    (parseLoop (markerConfigLine :: rest) files (some sec) content
        = parseLoop rest (dictInsert files sec (pyStrip (joinLines content))) (some keyConfig) [])
    ∧ (parseLoop (markerPluginsLine :: rest) files (some sec) content
        = parseLoop rest (dictInsert files sec (pyStrip (joinLines content))) (some keyPlugins) [])
    ∧ (parseLoop (markerEndLine :: rest) files (some sec) content
        = (dictInsert files sec (pyStrip (joinLines content)), some sec, content))
    ∧ (parseLoop (markerJenkinsfileLine :: rest) files (some sec) content
        = parseLoop rest files (some keyJenkinsfile) []) := by
  refine ⟨?_, ?_, ?_, ?_⟩
  · rw [parseLoop_cons_markerP, flushFiles_some hsec hcontent]
  · rw [parseLoop_cons_markerR, flushFiles_some hsec hcontent]
  · rw [parseLoop_cons_markerEnd, flushFiles_some hsec hcontent]
  · rw [parseLoop_cons_markerJ]

/-- Witness for the amended C2 at a concrete state. -/
theorem c2_amended_flush_on_switch_witness :
    parseLoop (markerConfigLine :: []) [] (some keyJenkinsfile) ["x".data]
      = parseLoop [] (dictInsert [] keyJenkinsfile (pyStrip (joinLines ["x".data])))
          (some keyConfig) [] :=
  (c2_amended_flush_on_switch [] [] keyJenkinsfile ["x".data] (by decide) (by decide)).1

/-! ### C3: phase 1 failure aborts the flow -/

/-- C3 counterexample: when Phase 1 (git) fails, the flow returns
false immediately and Phases 2 and 3 are never attempted, contrary to
the claim that they are still attempted. -/
theorem c3_counterexample :
    start_automation_flow false true true
      = { result := false, attemptedJobPhase := false, attemptedPluginPhase := false } := by
  decide

/-- C3 amended: Phase 1 failure aborts the flow without attempting
Phases 2 and 3; when Phase 1 succeeds, Phases 2 and 3 are both
attempted regardless of each other's outcomes; in every case the
returned result is true exactly when all three phase outcomes are
true. -/
theorem c3_amended_phase_gating (g j p : Bool) :
    (start_automation_flow g j p).result = (g && j && p)
    ∧ (start_automation_flow g j p).attemptedJobPhase = g
    ∧ (start_automation_flow g j p).attemptedPluginPhase = g := by
  cases g <;> cases j <;> cases p <;> simp [start_automation_flow]

/-! ### C5: the truncation flush is conditional -/

lemma parseLoop_accum_nil {c : List Str} (h : ∀ l ∈ c, ¬ IsMarkerLine l) {sec : Str}
    (hsec : sec ≠ []) (files : Dict) (acc : List Str) :
    parseLoop c files (some sec) acc = (files, some sec, acc ++ c) := by
  have h2 := parseLoop_accum h hsec [] files acc
  rw [List.append_nil] at h2
  rw [h2]
  rfl

/-- C5 counterexample: a reply without the end marker, in which the
`JENKINSFILE` key is flushed early and its marker then reappears.  At
end-of-input the accumulating artifact is `Jenkinsfile` with content
line `c`, but the decoder does not return it (its key is already
present), keeping the earlier content `a` instead. -/
theorem c5_counterexample :
    _parse_structured_response
        ("=== JENKINSFILE ===\na\n=== PIPELINE_JOB_CONFIG ===\nb\n=== JENKINSFILE ===\nc".data)
      = [(keyJenkinsfile, "a".data)]
    ∧ pyStrip (joinLines ["c".data]) = "c".data := by decide

/-- C5 amended: when the end marker is absent the decoder flushes the
artifact accumulating at end-of-input only if its content is non-empty
and its key is not already present; in particular, for a reply made of
non-marker preamble, a single section marker and at least one
following non-marker line, the decoder returns exactly that artifact
with the following lines joined and stripped. -/
theorem c5_amended_truncation_flush (pre c : List Str) (m k : Str)
    (hmk : (m, k) ∈ [(markerJenkinsfileLine, keyJenkinsfile), (markerConfigLine, keyConfig),
      (markerPluginsLine, keyPlugins)])
    (hpre : ∀ l ∈ pre, ¬ IsMarkerLine l ∧ '\n' ∉ l)
    (hc : ∀ l ∈ c, ¬ IsMarkerLine l ∧ '\n' ∉ l) (hcne : c ≠ []) :
    _parse_structured_response (joinLines (pre ++ m :: c))
      = [(k, pyStrip (joinLines c))] := by
  have hkm : (m = markerJenkinsfileLine ∧ k = keyJenkinsfile)
      ∨ (m = markerConfigLine ∧ k = keyConfig)
      ∨ (m = markerPluginsLine ∧ k = keyPlugins) := by
    simp only [List.mem_cons, List.mem_singleton, Prod.mk.injEq] at hmk
    simpa using hmk
  have hnl : ∀ (mline : Str), '\n' ∉ mline → ∀ l ∈ pre ++ mline :: c, '\n' ∉ l := by
    intro mline hm l hl
    simp only [List.mem_append, List.mem_cons] at hl
    rcases hl with h | rfl | h
    · exact (hpre l h).2
    · exact hm
    · exact (hc l h).2
  rcases hkm with ⟨rfl, rfl⟩ | ⟨rfl, rfl⟩ | ⟨rfl, rfl⟩
  all_goals {
    unfold _parse_structured_response
    rw [splitLines_joinLines (by simp) (hnl _ (by decide)),
      parseLoop_skip (fun l hl => (hpre l hl).1)]
    first
      | rw [parseLoop_cons_markerJ,
          parseLoop_accum_nil (fun l hl => (hc l hl).1)
            (by decide : keyJenkinsfile ≠ []) ([] : Dict) []]
      | rw [parseLoop_cons_markerP,
          parseLoop_accum_nil (fun l hl => (hc l hl).1)
            (by decide : keyConfig ≠ []) (flushFiles [] none []) []]
      | rw [parseLoop_cons_markerR,
          parseLoop_accum_nil (fun l hl => (hc l hl).1)
            (by decide : keyPlugins ≠ []) (flushFiles [] none []) []]
    simp [flushFiles, isEmpty_false_of_ne_nil hcne, dictContains, dictInsert,
      (by decide : keyJenkinsfile.isEmpty = false), (by decide : keyConfig.isEmpty = false),
      (by decide : keyPlugins.isEmpty = false)]
  }

/-- Witness for the amended C5 at a concrete truncated reply. -/
theorem c5_amended_truncation_flush_witness :
    _parse_structured_response
        (joinLines (["lead-in".data] ++ markerConfigLine :: ["xml body".data]))
      = [(keyConfig, pyStrip (joinLines ["xml body".data]))] :=
  c5_amended_truncation_flush ["lead-in".data] ["xml body".data] markerConfigLine keyConfig
    (by decide) (by decide) (by decide) (by decide)

/-! ### C9: preamble lines and post-END lines are discarded -/

lemma parseLoop_end_invariant (pre : List Str) :
    ∀ (files : Dict) (cur : Option Str) (content : List Str) (post post' : List Str),
      parseLoop (pre ++ markerEndLine :: post) files cur content
        = parseLoop (pre ++ markerEndLine :: post') files cur content := by
  induction pre with
  | nil =>
    intro files cur content post post'
    rw [List.nil_append, List.nil_append, parseLoop_cons_markerEnd, parseLoop_cons_markerEnd]
  | cons a pre' ih =>
    intro files cur content post post'
    rw [List.cons_append, List.cons_append]
    simp only [parseLoop]
    repeat' split
    all_goals first
      | rfl
      | exact ih _ _ _ _ _

/-- C9: lines occurring before the first recognized marker do not
influence the decoded artifacts at all (decoding a reply with a
non-marker preamble equals decoding the reply without it), and lines
occurring after the `=== END ===` marker do not influence the decoded
artifacts at all (any two post-END tails decode identically). -/
theorem c9_preamble_and_tail_discarded :
    (∀ (pre rest : List Str), rest ≠ [] →
        (∀ l ∈ pre, ¬ IsMarkerLine l ∧ '\n' ∉ l) → (∀ l ∈ rest, '\n' ∉ l) →
        _parse_structured_response (joinLines (pre ++ rest))
          = _parse_structured_response (joinLines rest))
    ∧ (∀ (pre post post' : List Str),
        (∀ l ∈ pre, '\n' ∉ l) → (∀ l ∈ post, '\n' ∉ l) → (∀ l ∈ post', '\n' ∉ l) →
        _parse_structured_response (joinLines (pre ++ markerEndLine :: post))
          = _parse_structured_response (joinLines (pre ++ markerEndLine :: post'))) := by
  constructor
  · intro pre rest hne hpre hrest
    have hnl : ∀ l ∈ pre ++ rest, '\n' ∉ l := by
      intro l hl
      rcases List.mem_append.mp hl with h | h
      · exact (hpre l h).2
      · exact hrest l h
    have hne2 : pre ++ rest ≠ [] := by
      intro h
      exact hne (List.append_eq_nil.mp h).2
    unfold _parse_structured_response
    rw [splitLines_joinLines hne2 hnl, splitLines_joinLines hne hrest,
      parseLoop_skip (fun l hl => (hpre l hl).1)]
  · intro pre post post' hpre hpost hpost'
    have hnl : ∀ (q : List Str), (∀ l ∈ q, '\n' ∉ l) →
        ∀ l ∈ pre ++ markerEndLine :: q, '\n' ∉ l := by
      intro q hq l hl
      simp only [List.mem_append, List.mem_cons] at hl
      rcases hl with h | rfl | h
      · exact hpre l h
      · decide
      · exact hq l h
    unfold _parse_structured_response
    rw [splitLines_joinLines (by simp) (hnl post hpost),
      splitLines_joinLines (by simp) (hnl post' hpost'),
      parseLoop_end_invariant pre [] none [] post post']

/-- Witness for C9 at a concrete reply with a discarded preamble. -/
theorem c9_preamble_and_tail_discarded_witness :
    _parse_structured_response
        (joinLines (["chatter".data] ++ [markerJenkinsfileLine, "stage".data]))
      = _parse_structured_response (joinLines [markerJenkinsfileLine, "stage".data]) :=
  c9_preamble_and_tail_discarded.1 ["chatter".data] [markerJenkinsfileLine, "stage".data]
    (by decide) (by decide) (by decide)

/-! ### C4: generation calls can return partial artifact sets -/

lemma dictInsert_key_mem {d : Dict} {k v : Str} {kv : Str × Str}
    (h : kv ∈ dictInsert d k v) : kv.1 = k ∨ kv ∈ d := by
  unfold dictInsert at h
  by_cases hc : dictContains d k = true
  · rw [if_pos hc] at h
    obtain ⟨p, hp, hfp⟩ := List.mem_map.mp h
    by_cases hk : (p.1 == k) = true
    · rw [if_pos hk] at hfp
      left
      rw [← hfp]
    · rw [if_neg hk] at hfp
      right
      rw [← hfp]
      exact hp
  · rw [if_neg hc] at h
    rcases List.mem_append.mp h with h | h
    · right
      exact h
    · left
      rw [List.mem_singleton.mp h]
lemma flushFiles_key_mem {files : Dict} {cur : Option Str} {content : List Str}
    {kv : Str × Str} (h : kv ∈ flushFiles files cur content) :
    kv ∈ files ∨ ∃ s, cur = some s ∧ kv.1 = s := by
  cases cur with
  | none =>
    simp only [flushFiles] at h
    exact Or.inl h
  | some sec =>
    simp only [flushFiles] at h
    by_cases hc : (sec.isEmpty || content.isEmpty) = true
    · rw [if_pos hc] at h
      exact Or.inl h
    · rw [if_neg hc] at h
      rcases dictInsert_key_mem h with h | h
      · exact Or.inr ⟨sec, rfl, h⟩
      · exact Or.inl h

lemma parseLoop_keys_subset (lines : List Str) :
    ∀ (files : Dict) (cur : Option Str) (content : List Str),
      (∀ kv ∈ files, kv.1 ∈ [keyJenkinsfile, keyConfig, keyPlugins]) →
      (∀ s, cur = some s → s ∈ [keyJenkinsfile, keyConfig, keyPlugins]) →
      (∀ kv ∈ (parseLoop lines files cur content).1,
          kv.1 ∈ [keyJenkinsfile, keyConfig, keyPlugins])
      ∧ (∀ s, (parseLoop lines files cur content).2.1 = some s →
          s ∈ [keyJenkinsfile, keyConfig, keyPlugins]) := by
  induction lines with
  | nil =>
    intro files cur content hf hc
    exact ⟨hf, hc⟩
  | cons a rest ih =>
    intro files cur content hf hc
    have hflush : ∀ kv ∈ flushFiles files cur content,
        kv.1 ∈ [keyJenkinsfile, keyConfig, keyPlugins] := by
      intro kv hkv
      rcases flushFiles_key_mem hkv with h | ⟨s, hs, hks⟩
      · exact hf kv h
      · rw [hks]
        exact hc s hs
    simp only [parseLoop]
    split
    · exact ih _ _ _ hf (by intro s hs; rw [← Option.some.inj hs]; simp)
    · split
      · exact ih _ _ _ hflush (by intro s hs; rw [← Option.some.inj hs]; simp)
      · split
        · exact ih _ _ _ hflush (by intro s hs; rw [← Option.some.inj hs]; simp)
        · split
          · exact ⟨hflush, hc⟩
          · split
            · split
              · exact ih _ _ _ hf hc
              · exact ih _ _ _ hf hc
            · exact ih _ _ _ hf hc

lemma parse_structured_keys_subset (response : Str) :
    ∀ kv ∈ _parse_structured_response response,
      kv.1 ∈ [keyJenkinsfile, keyConfig, keyPlugins] := by
  intro kv hkv
  have h := parseLoop_keys_subset (splitLines response) [] none [] (by simp) (by simp)
  unfold _parse_structured_response at hkv
  split at hkv
  next files sec content heq =>
    have h1 := h.1
    have h2 := h.2
    rw [heq] at h1 h2
    split at hkv
    · exact h1 kv hkv
    · rcases dictInsert_key_mem hkv with hk | hk
      · rw [hk]
        exact h2 sec rfl
      · exact h1 kv hk
  next files tail heq =>
    have h1 := h.1
    rw [heq] at h1
    exact h1 kv hkv

/-- C4 counterexample: a feedback-modification call whose reply
contains only the JENKINSFILE section returns a mapping holding a
strict subset of the three artifact keys, contradicting the claim
that every non-raising call returns all three keys. -/
theorem c4_counterexample :
    modify_files ("=== JENKINSFILE ===\npipeline body\n=== END ===".data)
      = [(keyJenkinsfile, "pipeline body".data)]
    ∧ dictContains
        (modify_files ("=== JENKINSFILE ===\npipeline body\n=== END ===".data)) keyConfig
        = false
    ∧ dictContains
        (modify_files ("=== JENKINSFILE ===\npipeline body\n=== END ===".data)) keyPlugins
        = false := by decide

/-- C4 amended: when all three per-artifact calls succeed,
`generate_all_files` returns exactly the three artifact keys; on any
fallback, and for every `modify_files` call, the returned mapping's
keys are drawn from the three artifact keys but may form a strict
subset of them. -/
theorem c4_amended_complete_or_recovered_subset :
    (∀ r1 r2 r3 : Str, ∀ fallback : Str,
        generate_all_files (some r1) (some r2) (some r3) fallback
          = [(keyJenkinsfile, r1), (keyConfig, r2), (keyPlugins, r3)])
    ∧ (∀ (c1 c2 c3 : Option Str) (fallback : Str), ∀ kv ∈ generate_all_files c1 c2 c3 fallback,
        kv.1 ∈ [keyJenkinsfile, keyConfig, keyPlugins])
    ∧ (∀ response : Str, ∀ kv ∈ modify_files response,
        kv.1 ∈ [keyJenkinsfile, keyConfig, keyPlugins]) := by
  refine ⟨fun r1 r2 r3 fallback => rfl, ?_, ?_⟩
  · intro c1 c2 c3 fallback kv hkv
    cases c1 with
    | none => exact parse_structured_keys_subset fallback kv hkv
    | some j =>
      cases c2 with
      | none => exact parse_structured_keys_subset fallback kv hkv
      | some c =>
        cases c3 with
        | none => exact parse_structured_keys_subset fallback kv hkv
        | some p =>
          simp only [generate_all_files, List.mem_cons] at hkv
          rcases hkv with rfl | rfl | rfl | h
          · simp
          · simp
          · simp
          · cases h
  · intro response kv hkv
    exact parse_structured_keys_subset response kv hkv

/-- Witness for the amended C4: a concrete fallback decode whose one
recovered key is among the three artifact keys. -/
theorem c4_amended_complete_or_recovered_subset_witness :
    (keyJenkinsfile, "pipeline body".data).1 ∈ [keyJenkinsfile, keyConfig, keyPlugins] :=
  c4_amended_complete_or_recovered_subset.2.2
    ("=== JENKINSFILE ===\npipeline body\n=== END ===".data)
    (keyJenkinsfile, "pipeline body".data) (by decide)

/-! ### C6: plugin installation succeeds iff at least one install succeeds -/

/-- C6: for a non-empty requirement list, `_install_jenkins_plugins`
returns success exactly when the number of individual installs that
succeeded is positive; every plugin is attempted (the count ranges
over the whole list), so individual failures do not abort the
iteration. -/
theorem c6_install_success_iff_positive_count
    (plugins : List PluginReq) (cliOk : Str → Bool) (hne : plugins ≠ []) :
    _install_jenkins_plugins plugins cliOk = true
      ↔ 0 < (plugins.filter fun p => cliOk (pluginSpec p)).length := by
  have hlen : 0 < plugins.length := List.length_pos.mpr hne
  show (if (plugins.filter fun p => cliOk (pluginSpec p)).length = plugins.length then true
      else if 0 < (plugins.filter fun p => cliOk (pluginSpec p)).length then true
      else false) = true ↔ _
  by_cases h1 : (plugins.filter fun p => cliOk (pluginSpec p)).length = plugins.length
  · rw [if_pos h1]
    exact iff_of_true rfl (h1 ▸ hlen)
  · rw [if_neg h1]
    by_cases h2 : 0 < (plugins.filter fun p => cliOk (pluginSpec p)).length
    · rw [if_pos h2]
      exact iff_of_true rfl h2
    · rw [if_neg h2]
      exact iff_of_false (by simp) h2

/-- Witness for C6: five requirements of which exactly three install
successfully; the phase succeeds. -/
theorem c6_install_success_iff_positive_count_witness :
    _install_jenkins_plugins
        [{ name := "git".data, version := "4.8.3".data },
         { name := "junit".data, version := "latest".data },
         { name := "slack".data, version := "latest".data },
         { name := "gradle".data, version := "latest".data },
         { name := "nodejs".data, version := "latest".data }]
        (fun s => s == "git:4.8.3".data || s == "junit".data || s == "slack".data) = true :=
  (c6_install_success_iff_positive_count _ _ (by decide)).mpr (by decide)

/-! ### C7: one fallback attempt with the minimal template on rejection -/

/-- C7: when the remote rejects the full generated configuration with
a nonzero exit code, exactly one fallback attempt is made, submitting
the hardcoded minimal template (which references the repository URL in
its `<url>` element and the fixed `Jenkinsfile` script path), and the
phase succeeds exactly when that fallback attempt is accepted. -/
theorem c7_rejection_triggers_single_minimal_fallback
    (code : Nat) (fallbackOutcome : CmdOutcome) (repo_name repo_url : Str) :
    (_create_jenkins_job (CmdOutcome.exit (code + 1)) fallbackOutcome repo_name repo_url).fallbackDocs
        = [minimal_job_xml repo_name repo_url]
    ∧ ((_create_jenkins_job (CmdOutcome.exit (code + 1)) fallbackOutcome repo_name repo_url).result
          = true ↔ fallbackOutcome = CmdOutcome.exit 0)
    ∧ (∃ a b, minimal_job_xml repo_name repo_url
        = a ++ ("<url>".data ++ repo_url ++ "</url>".data) ++ b)
    ∧ (∃ a b, minimal_job_xml repo_name repo_url
        = a ++ "<scriptPath>Jenkinsfile</scriptPath>".data ++ b) := by
  refine ⟨rfl, ?_, ?_, ?_⟩
  · cases fallbackOutcome with
    | exit c =>
      cases c with
      | zero => simp [_create_jenkins_job, _create_minimal_pipeline_job]
      | succ c' => simp [_create_jenkins_job, _create_minimal_pipeline_job]
    | timedOut => simp [_create_jenkins_job, _create_minimal_pipeline_job]
  · exact ⟨mjxDescHead ++ repo_name ++ mjxMid,
      mjxTail1 ++ "<scriptPath>Jenkinsfile</scriptPath>".data ++ mjxTail2,
      by simp [minimal_job_xml, List.append_assoc]⟩
  · exact ⟨mjxDescHead ++ repo_name ++ mjxMid ++ "<url>".data ++ repo_url ++ "</url>".data
        ++ mjxTail1, mjxTail2,
      by simp [minimal_job_xml, List.append_assoc]⟩

/-! ### C10: an empty parsed manifest short-circuits the plugin phase -/

/-- C10: when the manifest file exists but parsing yields no
requirements — including the swallowed-read-error case, where the
parse returns the empty list — the plugin phase returns success
without prompting the operator and without attempting any remote
install. -/
theorem c10_empty_manifest_short_circuit (fileRead : Option Str) (confirm : Bool)
    (cliOk : Str → Bool) (h : _parse_plugins_xml fileRead = []) :
    plugin_installation_phase true fileRead confirm cliOk
      = { result := true, promptedOperator := false, installAttempted := false } := by
  simp [plugin_installation_phase, h]

/-- Witness for C10 at the read-error case (`none` read, parsed to the
empty list). -/
theorem c10_empty_manifest_short_circuit_witness :
    plugin_installation_phase true none false (fun _ => false)
      = { result := true, promptedOperator := false, installAttempted := false } :=
  c10_empty_manifest_short_circuit none false (fun _ => false) (by decide)

/-! ### C8: plugin-manifest parsing -/

lemma consumeLit_length : ∀ {p s r : Str}, consumeLit p s = some r →
    s.length = p.length + r.length := by
  intro p
  induction p with
  | nil =>
    intro s r h
    simp only [consumeLit, Option.some.injEq] at h
    rw [← h]
    simp
  | cons a p' ih =>
    intro s r h
    cases s with
    | nil => simp [consumeLit] at h
    | cons c cs =>
      simp only [consumeLit] at h
      by_cases hc : c = a
      · rw [if_pos hc] at h
        have h2 := ih h
        simp only [List.length_cons]
        omega
      · rw [if_neg hc] at h
        cases h

lemma consumeLit_self_append (p t : Str) : consumeLit p (p ++ t) = some t := by
  induction p with
  | nil => rfl
  | cons a p' ih =>
    rw [List.cons_append]
    simp only [consumeLit]
    simpa using ih

lemma length_dropWhile_le' (p : Char → Bool) (l : Str) :
    (l.dropWhile p).length ≤ l.length := by
  induction l with
  | nil => simp
  | cons a l' ih =>
    by_cases h : p a = true
    · rw [List.dropWhile_cons_of_pos h]
      exact Nat.le_trans ih (by simp)
    · rw [List.dropWhile_cons_of_neg h]

lemma tryPluginMatch_length : ∀ {s cap rem : Str}, tryPluginMatch s = some (cap, rem) →
    rem.length < s.length := by
  intro s cap rem h
  unfold tryPluginMatch at h
  split at h
  · exact Option.noConfusion h
  next afterOpen heq1 =>
    have hl1 := consumeLit_length heq1
    have hol : pluginOpenLit.length = 7 := by decide
    split at h
    next afterGt heq2 =>
      have hd1 : (afterOpen.dropWhile (fun c => c != '>')).length ≤ afterOpen.length :=
        length_dropWhile_le' _ _
      rw [heq2] at hd1
      split at h
      · exact Option.noConfusion h
      · split at h
        next remaining heq3 =>
          have hl3 := consumeLit_length heq3
          have hcl : pluginCloseLit.length = 9 := by decide
          have hd2 : (afterGt.dropWhile (fun c => c != '<')).length ≤ afterGt.length :=
            length_dropWhile_le' _ _
          simp only [Option.some.injEq, Prod.mk.injEq] at h
          obtain ⟨hcap, hrem⟩ := h
          subst hrem
          simp only [List.length_cons] at hd1
          omega
        · exact Option.noConfusion h
    next heq2 =>
      exact Option.noConfusion h

lemma scanPluginEntries_fuel : ∀ (n : Nat) (s : Str), s.length ≤ n →
    ∀ m, s.length ≤ m → scanPluginEntries n s = scanPluginEntries m s := by
  intro n
  induction n with
  | zero =>
    intro s h m hm
    have hs : s = [] := List.length_eq_zero.mp (Nat.le_zero.mp h)
    subst hs
    cases m with
    | zero => rfl
    | succ m' => rfl
  | succ n' ih =>
    intro s h m hm
    cases s with
    | nil =>
      cases m with
      | zero => rfl
      | succ m' => rfl
    | cons c cs =>
      cases m with
      | zero => simp at hm
      | succ m' =>
        simp only [scanPluginEntries]
        split
        next cap remaining heq =>
          have hlt := tryPluginMatch_length heq
          simp only [List.length_cons] at h hm hlt
          rw [ih remaining (by omega) m' (by omega)]
        next heq =>
          simp only [List.length_cons] at h hm
          rw [ih cs (by omega) m' (by omega)]

lemma takeWhile_append_stop {p : Char → Bool} {a : Str} (h : ∀ c ∈ a, p c = true) {x : Char}
    (hx : p x = false) (b : Str) : (a ++ x :: b).takeWhile p = a := by
  induction a with
  | nil =>
    rw [List.nil_append, List.takeWhile_cons_of_neg (by simp [hx])]
  | cons c a' ih =>
    rw [List.cons_append, List.takeWhile_cons_of_pos (h c (by simp)),
      ih (fun d hd => h d (by simp [hd]))]

lemma dropWhile_append_stop {p : Char → Bool} {a : Str} (h : ∀ c ∈ a, p c = true) {x : Char}
    (hx : p x = false) (b : Str) : (a ++ x :: b).dropWhile p = x :: b := by
  induction a with
  | nil =>
    rw [List.nil_append, List.dropWhile_cons_of_neg (by simp [hx])]
  | cons c a' ih =>
    rw [List.cons_append, List.dropWhile_cons_of_pos (h c (by simp)),
      ih (fun d hd => h d (by simp [hd]))]

lemma tryPluginMatch_entry {frag : Str} (hne : frag ≠ []) (hlt : '<' ∉ frag) (rest : Str) :
    tryPluginMatch (pluginEntryXml frag ++ rest) = some (frag, rest) := by
  have hfragp : ∀ c ∈ frag, (c != '<') = true := by
    intro c hc
    simp only [bne_iff_ne, ne_eq]
    exact fun e => hlt (e ▸ hc)
  have hshape : pluginEntryXml frag ++ rest
      = pluginOpenLit ++ ('>' :: (frag ++ '<' :: ("/plugin>".data ++ rest))) := by
    simp [pluginEntryXml, pluginOpenLit, List.append_assoc]
  rw [hshape]
  unfold tryPluginMatch
  simp only [consumeLit_self_append]
  rw [List.dropWhile_cons_of_neg (by simp)]
  simp only [takeWhile_append_stop hfragp (by decide : (('<' : Char) != '<') = false),
    dropWhile_append_stop hfragp (by decide : (('<' : Char) != '<') = false),
    isEmpty_false_of_ne_nil hne, Bool.false_eq_true, if_false]
  simp [consumeLit, pluginCloseLit, consumeLit_self_append]

lemma scanPluginEntries_skip {s : Str} (h : '<' ∉ s) (r : Str) :
    scanPluginEntries (s ++ r).length (s ++ r) = scanPluginEntries r.length r := by
  induction s with
  | nil => simp
  | cons c s' ih =>
    rw [List.mem_cons, not_or] at h
    have hnone : tryPluginMatch (c :: (s' ++ r)) = none := by
      unfold tryPluginMatch
      have hcl : consumeLit pluginOpenLit (c :: (s' ++ r)) = none := by
        rw [(by decide : pluginOpenLit = '<' :: "plugin".data)]
        simp only [consumeLit]
        rw [if_neg (fun e => h.1 e.symm)]
      rw [hcl]
    rw [List.cons_append, List.length_cons]
    simp only [scanPluginEntries, hnone]
    exact ih h.2

lemma scan_manifestOf : ∀ (parts : List (Str × Str)) (lead : Str), '<' ∉ lead →
    (∀ q ∈ parts, q.1 ≠ [] ∧ '<' ∉ q.1 ∧ '<' ∉ q.2) →
    scanPluginEntries (manifestOf lead parts).length (manifestOf lead parts)
      = parts.map (fun q => q.1) := by
  intro parts
  induction parts with
  | nil =>
    intro lead hl _
    have h2 := scanPluginEntries_skip hl []
    simpa [manifestOf] using h2
  | cons q parts' ih =>
    intro lead hl hq
    obtain ⟨frag, sep⟩ := q
    obtain ⟨hne, hfl, hsl⟩ := hq (frag, sep) (by simp)
    have hm : manifestOf lead ((frag, sep) :: parts')
        = lead ++ (pluginEntryXml frag ++ manifestOf sep parts') := by
      simp [manifestOf, List.append_assoc]
    rw [hm, scanPluginEntries_skip hl]
    have hcons : pluginEntryXml frag ++ manifestOf sep parts'
        = '<' :: ("plugin>".data ++ (frag ++ "</plugin>".data ++ manifestOf sep parts')) := by
      simp [pluginEntryXml, List.append_assoc]
    have hmatch : tryPluginMatch
        ('<' :: ("plugin>".data ++ (frag ++ "</plugin>".data ++ manifestOf sep parts')))
        = some (frag, manifestOf sep parts') := by
      rw [← hcons]
      have h2 := tryPluginMatch_entry hne hfl (manifestOf sep parts')
      simpa [List.append_assoc] using h2
    rw [hcons, List.length_cons]
    simp only [scanPluginEntries, hmatch]
    have hfuel : (manifestOf sep parts').length
        ≤ ("plugin>".data ++ (frag ++ "</plugin>".data ++ manifestOf sep parts')).length := by
      simp [List.length_append]
      omega
    rw [scanPluginEntries_fuel _ _ hfuel (manifestOf sep parts').length (Nat.le_refl _)]
    rw [ih sep hsl (fun q hq2 => hq q (by simp [hq2]))]
    simp

/-- C8: parsing a plugin manifest extracts every `<plugin>...</plugin>`
fragment in source order with no deduplication (over well-formed
manifests made of `<`-free segments around nonempty `<`-free
fragments), and each fragment is decoded by splitting on the first `@`
with both parts stripped, the version defaulting to `latest` when no
`@` is present. -/
theorem c8_plugin_manifest_decode :
    (∀ (lead : Str) (parts : List (Str × Str)), '<' ∉ lead →
        (∀ q ∈ parts, q.1 ≠ [] ∧ '<' ∉ q.1 ∧ '<' ∉ q.2) →
        _parse_plugins_xml (some (manifestOf lead parts))
          = parts.map (fun q => pluginEntryToReq q.1))
    ∧ (∀ a b : Str, '@' ∉ a →
        pluginEntryToReq (a ++ '@' :: b)
          = { name := pyStrip a, version := pyStrip b })
    ∧ (∀ e : Str, '@' ∉ e →
        pluginEntryToReq e = { name := pyStrip e, version := "latest".data }) := by
  refine ⟨?_, ?_, ?_⟩
  · intro lead parts hl hq
    show List.map pluginEntryToReq
        (scanPluginEntries (manifestOf lead parts).length (manifestOf lead parts))
      = List.map (fun q => pluginEntryToReq q.1) parts
    rw [scan_manifestOf parts lead hl hq, List.map_map]
    rfl
  · intro a b ha
    have hany : (a ++ '@' :: b).any (fun c => c == '@') = true := by
      simp
    unfold pluginEntryToReq
    rw [if_pos hany,
      takeWhile_append_stop (p := fun c => c != '@')
        (fun c hc => by simp only [bne_iff_ne, ne_eq]; exact fun e => ha (e ▸ hc))
        (by decide : (('@' : Char) != '@') = false) b,
      dropWhile_append_stop (p := fun c => c != '@')
        (fun c hc => by simp only [bne_iff_ne, ne_eq]; exact fun e => ha (e ▸ hc))
        (by decide : (('@' : Char) != '@') = false) b]
    simp
  · intro e he
    have hany : e.any (fun c => c == '@') = false := by
      simp only [List.any_eq_false]
      intro c hc
      simp only [beq_iff_eq]
      exact fun hc2 => he (hc2 ▸ hc)
    unfold pluginEntryToReq
    rw [if_neg (by simp [hany])]

/-- Witness for C8: a concrete manifest with a versioned and an
unversioned entry. -/
theorem c8_plugin_manifest_decode_witness :
    _parse_plugins_xml (some (manifestOf "manifest:\n".data
        [("git@4.8.3".data, "\n".data), ("workflow-aggregator".data, "\n".data)]))
      = [("git@4.8.3".data, "\n".data), ("workflow-aggregator".data, "\n".data)].map
          (fun q => pluginEntryToReq q.1) :=
  c8_plugin_manifest_decode.1 "manifest:\n".data
    [("git@4.8.3".data, "\n".data), ("workflow-aggregator".data, "\n".data)]
    (by decide) (by decide)
